import Mathlib

/-!
Shallow embedding of the Estimation card game score-calculation module
(`calculatePlayerScore`, `calculateRoundScores`, `calculateCumulativeScores`).
JavaScript numbers are modelled by `ℚ` (every arithmetic operation performed
by this module — small-integer addition, multiplication, halving — is exact
in IEEE doubles, so `ℚ` is a faithful model); `null` is modelled by
`Option`; the `throw` in `calculateRoundScores` is modelled by
`Except String`.
-/

namespace Estimation

/-- The game mode field: `"classic" | "mini" | "micro"`. -/
inductive GameMode where
  | classic
  | mini
  | micro
deriving DecidableEq

/-- The `GameData` object, restricted to the fields the scoring module reads.
2D arrays indexed by round then player are modelled as functions
`ℕ → Fin 4 → _`; a `(number | null)` entry is an `Option ℤ`.  The optional
arrays `everyoneLost`, `isDashCall`, `manualRisk` are modelled as total
boolean functions because the code reads them with `?? false` / falsy
coalescing, under which a missing entry behaves as `false`.  `scores` rows
may be absent (`Option`), matching the `if (roundScores)` guard in
`calculateCumulativeScores`. -/
structure GameData where
  calls : ℕ → Fin 4 → Option ℤ
  results : ℕ → Fin 4 → Option ℤ
  scores : ℕ → Option (List ℚ)
  isCaller : ℕ → Fin 4 → Bool
  roundDifferences : ℕ → Option ℤ
  everyoneLost : ℕ → Bool
  isDashCall : ℕ → Fin 4 → Bool
  manualRisk : ℕ → Fin 4 → Bool
  mode : GameMode

/-- `calculatePlayerScore` from the scoring module, line for line: dash tier
(early return, no bonuses), high-bid tier `8 ≤ bid ≤ 13` (only-winner /
only-loser adjustments only), then the low-bid accumulation. -/
def calculatePlayerScore (bid result : ℤ)
    (isDash isPositiveDash isCaller isRisk isOnlyWinner isOnlyLoser : Bool)
    (isWith : Bool) (riskMultiplier : ℤ) : ℚ :=
  let madeTheBid : Bool := bid == result
  if isDash then
    -- DashCall logic (bidding 0); returns early, no other bonuses
    if isPositiveDash then
      if madeTheBid then 25 else -25
    else
      if madeTheBid then 30 else -30
  else if 8 ≤ bid ∧ bid ≤ 13 then
    -- High bid logic (8-13)
    let score : ℚ := if madeTheBid then ((bid * bid : ℤ) : ℚ) else -((bid * bid : ℤ) : ℚ) / 2
    let score := if isOnlyWinner then score + 10 else score
    let score := if isOnlyLoser then score - 10 else score
    score
  else
    -- Low bids logic (1-7)
    let score : ℚ := 0
    let score := if madeTheBid then score + 10 else score
    let score := if madeTheBid then score + (result : ℚ) else score - ((|bid - result| : ℤ) : ℚ)
    let score := if isCaller then (if madeTheBid then score + 10 else score - 10) else score
    let score := if isWith then (if madeTheBid then score + 10 else score - 10) else score
    let score := if isOnlyWinner then score + 10 else score
    let score := if isOnlyLoser then score - 10 else score
    let score := if isRisk && decide (0 < riskMultiplier) then
      (if madeTheBid then score + 10 * (riskMultiplier : ℚ) else score - 10 * (riskMultiplier : ℚ))
    else score
    score

/-- `Array.prototype.findIndex` on a 4-element boolean row; `none` models the
`-1` sentinel. -/
def findIdx4 (p : Fin 4 → Bool) : Option (Fin 4) :=
  if p 0 then some 0
  else if p 1 then some 1
  else if p 2 then some 2
  else if p 3 then some 3
  else none

/-- The `validCalls` array of `calculateRoundScores` (the post-validation
type assertion `calls as number[]`; `getD 0` is only read once validation
has ruled `none` out). -/
def validCalls (game : GameData) (roundIndex : ℕ) : Fin 4 → ℤ :=
  fun i => (game.calls roundIndex i).getD 0

/-- The `validResults` array of `calculateRoundScores`. -/
def validResults (game : GameData) (roundIndex : ℕ) : Fin 4 → ℤ :=
  fun i => (game.results roundIndex i).getD 0

/-- `currentWithCount` of `calculateRoundScores`: the number of players that
are not the caller, not a dash call, and whose call equals the caller's bid
(0 when there is no caller, matching `currentCallerBid !== null` in the
filter). -/
def withCount (game : GameData) (roundIndex : ℕ) : ℕ :=
  match (findIdx4 (game.isCaller roundIndex)).map (validCalls game roundIndex) with
  | none => 0
  | some currentCallerBid =>
    ((List.finRange 4).filter (fun i =>
      !(game.isCaller roundIndex i) && !(game.isDashCall roundIndex i) &&
        (validCalls game roundIndex i == currentCallerBid))).length

/-- The backward walk over `everyoneLost`: number of consecutive indices
`roundIndex - 1, roundIndex - 2, …` at which `everyoneLost` holds, stopping
at the first that does not. Each such round doubles the multiplier. -/
def lostStreakDoubles (everyoneLost : ℕ → Bool) : ℕ → ℕ
  | 0 => 0
  | n + 1 => if everyoneLost n then lostStreakDoubles everyoneLost n + 1 else 0

/-- The `multiplier` accumulated by `calculateRoundScores`: starts at 1,
`*= 2` when the current caller has at least two "with" players, then `*= 2`
per consecutive preceding `everyoneLost` round. -/
def roundMultiplier (game : GameData) (roundIndex : ℕ) : ℕ :=
  (if (findIdx4 (game.isCaller roundIndex)).isSome && decide (2 ≤ withCount game roundIndex)
    then 2 else 1) * 2 ^ lostStreakDoubles game.everyoneLost roundIndex

/-- The `riskMultiplier` computation of `calculateRoundScores` (lines
166-180): 0 when the round difference is unset, otherwise the tier of its
absolute value. -/
def computeRiskMultiplier (roundDifference : Option ℤ) : ℤ :=
  match roundDifference with
  | none => 0
  | some d =>
    if 8 ≤ |d| then 4
    else if 6 ≤ |d| then 3
    else if 4 ≤ |d| then 2
    else if 2 ≤ |d| then 1
    else 0

/-- `(callerIndex + offset) % 4`, the candidate position of the automatic
risk walk. -/
def candidateIndex (callerIndex : Fin 4) (offset : ℕ) : Fin 4 :=
  ⟨(callerIndex.val + offset) % 4, Nat.mod_lt _ (by norm_num)⟩

/-- The `riskPlayerIndex` computation of `calculateRoundScores` (lines
182-211): in a mandatory-suit round (classic mode, round number 14-18) the
first `true` of `manualRisk`; otherwise, with a known caller, the first
non-dash position among offsets 3, 2, 1 from the caller; `none` models the
`-1` sentinel. -/
def riskPlayerIdx (game : GameData) (roundIndex : ℕ) : Option (Fin 4) :=
  let callerIndex := findIdx4 (game.isCaller roundIndex)
  let roundNumber := roundIndex + 1
  let isMandatoryRound := decide (game.mode = GameMode.classic) &&
    decide (14 ≤ roundNumber) && decide (roundNumber ≤ 18)
  if isMandatoryRound then
    findIdx4 (game.manualRisk roundIndex)
  else
    match callerIndex with
    | none => none
    | some c =>
      if !(game.isDashCall roundIndex (candidateIndex c 3)) then some (candidateIndex c 3)
      else if !(game.isDashCall roundIndex (candidateIndex c 2)) then some (candidateIndex c 2)
      else if !(game.isDashCall roundIndex (candidateIndex c 1)) then some (candidateIndex c 1)
      else none

/-- The per-player `isWith` flag computed inside the scoring loop of
`calculateRoundScores` (line 237):
`!isCaller && callerBid !== null && bid === callerBid`. -/
def withFlag (game : GameData) (roundIndex : ℕ) (playerIndex : Fin 4) : Bool :=
  match (findIdx4 (game.isCaller roundIndex)).map (validCalls game roundIndex) with
  | none => false
  | some callerBid =>
    !(game.isCaller roundIndex playerIndex) &&
      (validCalls game roundIndex playerIndex == callerBid)

/-- The `baseScore` local of the scoring loop of `calculateRoundScores`
(lines 227-247), hoisted into a named function of the same data: all
contextual flags of the round (`isRisk`, `isPositiveDash`, the risk tier,
the risk player, only-winner / only-loser) are derived exactly as in the
loop, then `calculatePlayerScore` is invoked once for `playerIndex`.  This
is the player's raw score before the round multiplier is applied. -/
def playerBaseScore (game : GameData) (roundIndex : ℕ) (playerIndex : Fin 4) : ℚ :=
  let totalCalls := ((List.finRange 4).map (validCalls game roundIndex)).sum
  let roundDifference := game.roundDifferences roundIndex
  let isRisk := roundDifference.isSome && decide (2 ≤ |roundDifference.getD 0|)
  let isPositiveDash := decide (13 < totalCalls)
  let riskMultiplier := computeRiskMultiplier roundDifference
  let riskPlayerIndex := riskPlayerIdx game roundIndex
  let winners : Fin 4 → Bool := fun i =>
    validCalls game roundIndex i == validResults game roundIndex i
  let winnersCount := ((List.finRange 4).filter winners).length
  let losersCount := 4 - winnersCount
  let isOnlyWinner := decide (winnersCount = 1)
  let isOnlyLoser := decide (losersCount = 1)
  let bid := validCalls game roundIndex playerIndex
  let result := validResults game roundIndex playerIndex
  let isDash := bid == 0
  let madeTheBid := bid == result
  let isCaller := game.isCaller roundIndex playerIndex
  let isWith := withFlag game roundIndex playerIndex
  let playerIsAtRisk := isRisk && (riskPlayerIndex == some playerIndex)
  let playerIsOnlyWinner := isOnlyWinner && madeTheBid
  let playerIsOnlyLoser := isOnlyLoser && !madeTheBid
  calculatePlayerScore bid result isDash isPositiveDash isCaller
    playerIsAtRisk playerIsOnlyWinner playerIsOnlyLoser isWith riskMultiplier

/-- `calculateRoundScores`: validation (throwing when any call or result of
the round is unset), derivation of all contextual flags, then one
`calculatePlayerScore` invocation per player (`playerBaseScore`), each
multiplied by the common round multiplier. -/
def calculateRoundScores (game : GameData) (roundIndex : ℕ) :
    Except String (List ℚ × List Bool) :=
  if (List.finRange 4).any (fun i => (game.calls roundIndex i).isNone) ||
      (List.finRange 4).any (fun i => (game.results roundIndex i).isNone) then
    Except.error "Cannot calculate scores: missing calls or results"
  else
    let multiplier := roundMultiplier game roundIndex
    let winners : Fin 4 → Bool := fun i =>
      validCalls game roundIndex i == validResults game roundIndex i
    let roundScores := (List.finRange 4).map (fun playerIndex =>
      playerBaseScore game roundIndex playerIndex * (multiplier : ℚ))
    let newIsWinner := (List.finRange 4).map winners
    Except.ok (roundScores, newIsWinner)

/-- `calculateCumulativeScores`: starts at `[0,0,0,0]` and, for each round
index below `upToRound`, adds that round's score row componentwise when the
row exists (skipping absent rows, matching `if (roundScores)`). -/
def calculateCumulativeScores (game : GameData) (upToRound : ℕ) : List ℚ :=
  (List.range upToRound).foldl
    (fun cumulativeScores roundIndex =>
      match game.scores roundIndex with
      | some roundScores =>
        List.ofFn (fun p : Fin 4 => cumulativeScores.getD p.val 0 + roundScores.getD p.val 0)
      | none => cumulativeScores)
    [0, 0, 0, 0]

/-! Small computation lemmas used to evaluate the embedding on concrete
games. -/

lemma finRange4 : List.finRange 4 = [0, 1, 2, 3] := rfl

lemma fin4_val0 : ((0 : Fin 4) : ℕ) = 0 := rfl

lemma fin4_val1 : ((1 : Fin 4) : ℕ) = 1 := rfl

lemma fin4_val2 : ((2 : Fin 4) : ℕ) = 2 := rfl

lemma fin4_val3 : ((3 : Fin 4) : ℕ) = 3 := rfl

/-! ## Theorems -/

/-- Claim C1: for every player with bid in [1,7] (low-bid tier, not a dash),
`calculatePlayerScore` returns the accumulated sum of: +10 if result = bid
(no corresponding penalty when missed); +result if made, otherwise
-|bid - result|; ±10 for the caller; ±10 for a "with" player; +10 if only
winner; -10 if only loser; and, only when `isRisk` holds and
`riskMultiplier > 0`, ±(10 · riskMultiplier). -/
theorem calculatePlayerScore_low_bid_sum (bid result : ℤ)
    (isPositiveDash isCaller isRisk isOnlyWinner isOnlyLoser isWith : Bool)
    (riskMultiplier : ℤ) (h1 : 1 ≤ bid) (h2 : bid ≤ 7) :
    calculatePlayerScore bid result false isPositiveDash isCaller isRisk
      isOnlyWinner isOnlyLoser isWith riskMultiplier =
      (if bid = result then (10 : ℚ) else 0)
      + (if bid = result then (result : ℚ) else -((|bid - result| : ℤ) : ℚ))
      + (if isCaller = true then (if bid = result then 10 else -10) else 0)
      + (if isWith = true then (if bid = result then 10 else -10) else 0)
      + (if isOnlyWinner = true then 10 else 0)
      + (if isOnlyLoser = true then (-10 : ℚ) else 0)
      + (if isRisk = true ∧ 0 < riskMultiplier then
          (if bid = result then 10 * (riskMultiplier : ℚ)
            else -(10 * (riskMultiplier : ℚ))) else 0) := by
  have hb : ¬(8 ≤ bid ∧ bid ≤ 13) := by omega
  rcases eq_or_ne bid result with h | h
  · subst h
    cases isCaller <;> cases isWith <;> cases isOnlyWinner <;> cases isOnlyLoser <;>
      cases isRisk <;> by_cases hr : 0 < riskMultiplier <;>
      simp [calculatePlayerScore, if_neg hb, hr]
  · cases isCaller <;> cases isWith <;> cases isOnlyWinner <;> cases isOnlyLoser <;>
      cases isRisk <;> by_cases hr : 0 < riskMultiplier <;>
      simp [calculatePlayerScore, beq_iff_eq, if_neg hb, h, hr] <;> ring

/-- Witness for C1: the spec's own end-to-end scenario, caller bidding 4 and
making it: 10 + 4 + 10 = 24. -/
theorem calculatePlayerScore_low_bid_sum_w :
    calculatePlayerScore 4 4 false false true false false false false 0 = 24 := by
  rw [calculatePlayerScore_low_bid_sum 4 4 false true false false false false 0
    (by norm_num) (by norm_num)]
  norm_num

/-- Claim C2: for every call scored with `isDash` true, the score is exactly
±25 when `isPositiveDash` and ±30 otherwise (positive iff result = bid), and
no other bonus (caller, with, risk, only-winner, only-loser) ever changes
this value, regardless of the flag values passed in. -/
theorem calculatePlayerScore_dash_exact (bid result : ℤ)
    (isPositiveDash isCaller isRisk isOnlyWinner isOnlyLoser isWith : Bool)
    (riskMultiplier : ℤ) :
    calculatePlayerScore bid result true isPositiveDash isCaller isRisk
      isOnlyWinner isOnlyLoser isWith riskMultiplier =
      if bid = result then (if isPositiveDash = true then (25 : ℚ) else 30)
      else (if isPositiveDash = true then -25 else -30) := by
  unfold calculatePlayerScore
  by_cases h : bid = result <;> cases isPositiveDash <;> simp [h]

/-- Claim C3, counterexample: at bid 9, result 0 (missed high bid, no
flags), `calculatePlayerScore` returns `-(9·9)/2 = -81/2`, whose reduced
denominator is 2 — not an integer, refuting "calculatePlayerScore returns an
integer" at a point inside the claimed domain (bid, result in [0,13],
riskMultiplier 0). -/
theorem calculatePlayerScore_nine_missed_not_integer :
    calculatePlayerScore 9 0 false false false false false false false 0 = -81 / 2 ∧
    (calculatePlayerScore 9 0 false false false false false false false 0).den ≠ 1 := by
  have h : calculatePlayerScore 9 0 false false false false false false false 0 = -81 / 2 := by
    norm_num [calculatePlayerScore]
  refine ⟨h, ?_⟩
  rw [h]
  norm_num [Rat.den]

/-- Twice the score, computed in `ℤ` branch for branch alongside
`calculatePlayerScore` (auxiliary for `calculatePlayerScore_half_integer`). -/
def twiceScore (bid result : ℤ)
    (isDash isPositiveDash isCaller isRisk isOnlyWinner isOnlyLoser : Bool)
    (isWith : Bool) (riskMultiplier : ℤ) : ℤ :=
  let madeTheBid : Bool := bid == result
  if isDash then
    if isPositiveDash then
      if madeTheBid then 50 else -50
    else
      if madeTheBid then 60 else -60
  else if 8 ≤ bid ∧ bid ≤ 13 then
    let score : ℤ := if madeTheBid then 2 * (bid * bid) else -(bid * bid)
    let score := if isOnlyWinner then score + 20 else score
    let score := if isOnlyLoser then score - 20 else score
    score
  else
    let score : ℤ := 0
    let score := if madeTheBid then score + 20 else score
    let score := if madeTheBid then score + 2 * result else score - 2 * |bid - result|
    let score := if isCaller then (if madeTheBid then score + 20 else score - 20) else score
    let score := if isWith then (if madeTheBid then score + 20 else score - 20) else score
    let score := if isOnlyWinner then score + 20 else score
    let score := if isOnlyLoser then score - 20 else score
    let score := if isRisk && decide (0 < riskMultiplier) then
      (if madeTheBid then score + 20 * riskMultiplier else score - 20 * riskMultiplier)
    else score
    score

lemma two_mul_calculatePlayerScore (bid result : ℤ)
    (isDash isPositiveDash isCaller isRisk isOnlyWinner isOnlyLoser : Bool)
    (isWith : Bool) (riskMultiplier : ℤ) :
    2 * calculatePlayerScore bid result isDash isPositiveDash isCaller isRisk
      isOnlyWinner isOnlyLoser isWith riskMultiplier =
    ((twiceScore bid result isDash isPositiveDash isCaller isRisk
      isOnlyWinner isOnlyLoser isWith riskMultiplier : ℤ) : ℚ) := by
  cases isDash
  · by_cases hbid : 8 ≤ bid ∧ bid ≤ 13
    · rcases eq_or_ne bid result with h | h
      · subst h
        cases isOnlyWinner <;> cases isOnlyLoser <;>
          simp [calculatePlayerScore, twiceScore, if_pos hbid] <;>
          push_cast <;> ring
      · cases isOnlyWinner <;> cases isOnlyLoser <;>
          simp [calculatePlayerScore, twiceScore, beq_iff_eq, if_pos hbid, h] <;>
          push_cast <;> ring
    · rcases eq_or_ne bid result with h | h
      · subst h
        cases isCaller <;> cases isWith <;> cases isOnlyWinner <;> cases isOnlyLoser <;>
          cases isRisk <;> by_cases hr : 0 < riskMultiplier <;>
          simp [calculatePlayerScore, twiceScore, if_neg hbid, hr] <;>
          push_cast <;> ring
      · cases isCaller <;> cases isWith <;> cases isOnlyWinner <;> cases isOnlyLoser <;>
          cases isRisk <;> by_cases hr : 0 < riskMultiplier <;>
          simp [calculatePlayerScore, twiceScore, beq_iff_eq, if_neg hbid, h, hr] <;>
          push_cast <;> ring
  · rcases eq_or_ne bid result with h | h <;> cases isPositiveDash <;>
      simp [calculatePlayerScore, twiceScore, beq_iff_eq, h] <;> norm_num

/-- Claim C3, amended: for every bid, result, flag combination and
riskMultiplier, `calculatePlayerScore` returns an exact half-integer (an
integer multiple of 1/2): it is an integer everywhere except in the
high-bid tier, where a missed bid scores `-(bid·bid)/2`, a half-integer
when bid is odd (9, 11, 13). -/
theorem calculatePlayerScore_half_integer (bid result : ℤ)
    (isDash isPositiveDash isCaller isRisk isOnlyWinner isOnlyLoser : Bool)
    (isWith : Bool) (riskMultiplier : ℤ) :
    ∃ n : ℤ, calculatePlayerScore bid result isDash isPositiveDash isCaller isRisk
      isOnlyWinner isOnlyLoser isWith riskMultiplier = (n : ℚ) / 2 := by
  refine ⟨twiceScore bid result isDash isPositiveDash isCaller isRisk
    isOnlyWinner isOnlyLoser isWith riskMultiplier, ?_⟩
  have h := two_mul_calculatePlayerScore bid result isDash isPositiveDash isCaller isRisk
    isOnlyWinner isOnlyLoser isWith riskMultiplier
  linarith

/-- Claim C4, counterexample: at round difference 10 the code computes risk
multiplier 4 (the `absDiff >= 8` branch has no upper bound), not the 0 the
claim's "0 in every other case" demands for absolute differences outside
2-9. -/
theorem computeRiskMultiplier_abs_ten :
    computeRiskMultiplier (some 10) = 4 ∧ computeRiskMultiplier (some 10) ≠ 0 := by
  constructor <;> decide

lemma calculatePlayerScore_zero_mult (bid result : ℤ)
    (isDash isPositiveDash isCaller isOnlyWinner isOnlyLoser isWith : Bool) :
    calculatePlayerScore bid result isDash isPositiveDash isCaller true
      isOnlyWinner isOnlyLoser isWith 0 =
    calculatePlayerScore bid result isDash isPositiveDash isCaller false
      isOnlyWinner isOnlyLoser isWith 0 := by
  simp [calculatePlayerScore]

/-- Claim C4, amended: the risk multiplier computed by
`calculateRoundScores` from the absolute round difference is 1 for 2-3,
2 for 4-5, 3 for 6-7, 4 for 8 *or more*, and 0 for 0-1 (and for an unset
difference), in which case (multiplier 0) the risk flag has no effect on
`calculatePlayerScore`. -/
theorem computeRiskMultiplier_tier_table (d : ℤ) :
    (2 ≤ |d| ∧ |d| ≤ 3 → computeRiskMultiplier (some d) = 1) ∧
    (4 ≤ |d| ∧ |d| ≤ 5 → computeRiskMultiplier (some d) = 2) ∧
    (6 ≤ |d| ∧ |d| ≤ 7 → computeRiskMultiplier (some d) = 3) ∧
    (8 ≤ |d| → computeRiskMultiplier (some d) = 4) ∧
    (|d| ≤ 1 → computeRiskMultiplier (some d) = 0 ∧
      ∀ (bid result : ℤ) (isDash isPositiveDash isCaller isOnlyWinner isOnlyLoser isWith : Bool),
        calculatePlayerScore bid result isDash isPositiveDash isCaller true
          isOnlyWinner isOnlyLoser isWith (computeRiskMultiplier (some d)) =
        calculatePlayerScore bid result isDash isPositiveDash isCaller false
          isOnlyWinner isOnlyLoser isWith (computeRiskMultiplier (some d))) := by
  refine ⟨?_, ?_, ?_, ?_, ?_⟩ <;> intro h
  · unfold computeRiskMultiplier; dsimp only; split_ifs <;> omega
  · unfold computeRiskMultiplier; dsimp only; split_ifs <;> omega
  · unfold computeRiskMultiplier; dsimp only; split_ifs <;> omega
  · unfold computeRiskMultiplier; dsimp only; split_ifs <;> omega
  · have h0 : computeRiskMultiplier (some d) = 0 := by
      unfold computeRiskMultiplier; dsimp only; split_ifs <;> omega
    refine ⟨h0, ?_⟩
    intro bid result isDash isPositiveDash isCaller isOnlyWinner isOnlyLoser isWith
    rw [h0]
    exact calculatePlayerScore_zero_mult bid result isDash isPositiveDash isCaller
      isOnlyWinner isOnlyLoser isWith

/-- Witness for C4's amended theorem at difference -5: tier 2. -/
theorem computeRiskMultiplier_tier_table_w : computeRiskMultiplier (some (-5)) = 2 :=
  (computeRiskMultiplier_tier_table (-5)).2.1 (by decide)

/-- Claim C8: `calculateRoundScores` raises the incomplete-data validation
error if and only if at least one of the 8 round inputs (4 calls, 4
results) is unset; once all 8 are set it returns a result (never raises)
regardless of their values; and in the error case no scores or winner flags
are produced (the `Except.error` branch carries none). -/
theorem calculateRoundScores_validation (game : GameData) (roundIndex : ℕ) :
    (calculateRoundScores game roundIndex =
        Except.error "Cannot calculate scores: missing calls or results" ↔
      ∃ i : Fin 4, game.calls roundIndex i = none ∨ game.results roundIndex i = none) ∧
    ((∃ roundScores newIsWinner, calculateRoundScores game roundIndex =
        Except.ok (roundScores, newIsWinner)) ↔
      ∀ i : Fin 4, game.calls roundIndex i ≠ none ∧ game.results roundIndex i ≠ none) := by
  by_cases hc : ((List.finRange 4).any (fun i => (game.calls roundIndex i).isNone) ||
      (List.finRange 4).any (fun i => (game.results roundIndex i).isNone)) = true
  · have hex : ∃ i : Fin 4, game.calls roundIndex i = none ∨ game.results roundIndex i = none := by
      simp only [Bool.or_eq_true, List.any_eq_true, List.mem_finRange, true_and,
        Option.isNone_iff_eq_none] at hc
      rcases hc with ⟨i, hi⟩ | ⟨i, hi⟩
      · exact ⟨i, Or.inl hi⟩
      · exact ⟨i, Or.inr hi⟩
    constructor
    · constructor
      · intro _; exact hex
      · intro _; unfold calculateRoundScores; rw [if_pos hc]
    · constructor
      · rintro ⟨s, w, hs⟩
        unfold calculateRoundScores at hs
        rw [if_pos hc] at hs
        exact absurd hs (by simp)
      · intro hall
        rcases hex with ⟨i, hi | hi⟩
        · exact absurd hi (hall i).1
        · exact absurd hi (hall i).2
  · have hall : ∀ i : Fin 4,
        game.calls roundIndex i ≠ none ∧ game.results roundIndex i ≠ none := by
      simp only [Bool.or_eq_true, List.any_eq_true, List.mem_finRange, true_and,
        Option.isNone_iff_eq_none, not_or, not_exists] at hc
      exact fun i => ⟨hc.1 i, hc.2 i⟩
    constructor
    · constructor
      · intro herr
        unfold calculateRoundScores at herr
        rw [if_neg hc] at herr
        exact absurd herr (by simp)
      · rintro ⟨i, hi | hi⟩
        · exact absurd hi (hall i).1
        · exact absurd hi (hall i).2
    · constructor
      · intro _; exact hall
      · intro _
        unfold calculateRoundScores
        rw [if_neg hc]
        exact ⟨_, _, rfl⟩

lemma calculateCumulativeScores_succ (game : GameData) (m : ℕ) :
    calculateCumulativeScores game (m + 1) =
      match game.scores m with
      | some roundScores => List.ofFn (fun p : Fin 4 =>
          (calculateCumulativeScores game m).getD p.val 0 + roundScores.getD p.val 0)
      | none => calculateCumulativeScores game m := by
  unfold calculateCumulativeScores
  rw [List.range_succ, List.foldl_append]
  rfl

lemma calculateCumulativeScores_length (game : GameData) (n : ℕ) :
    (calculateCumulativeScores game n).length = 4 := by
  induction n with
  | zero => rfl
  | succ m ih =>
    rw [calculateCumulativeScores_succ]
    cases hs : game.scores m <;> simp [ih]

lemma zeros_getD (k : ℕ) : ([0, 0, 0, 0] : List ℚ).getD k 0 = 0 := by
  rcases k with _ | _ | _ | _ | k <;> rfl

lemma getD_reconstruct (l : List ℚ) (h : l.length = 4) :
    List.ofFn (fun p : Fin 4 => l.getD p.val 0) = l := by
  rcases l with _ | ⟨a, _ | ⟨b, _ | ⟨c, _ | ⟨d, _ | t⟩⟩⟩⟩ <;> simp_all [List.ofFn_succ]

/-- Claim C9: `calculateCumulativeScores` at 0 rounds is `[0,0,0,0]`, and at
`n ≥ 1` rounds equals the cumulative scores of `n - 1` rounds plus the
row of round `n - 1` componentwise over the 4 players, an absent (not yet
finalized) row contributing its placeholder zero values — i.e. it sums the
rows of all rounds up to, not including, the given index. -/
theorem cumulative_scores_recurrence (game : GameData) (n : ℕ) :
    calculateCumulativeScores game 0 = [0, 0, 0, 0] ∧
    (1 ≤ n → calculateCumulativeScores game n =
      List.ofFn (fun p : Fin 4 =>
        (calculateCumulativeScores game (n - 1)).getD p.val 0 +
        ((game.scores (n - 1)).getD [0, 0, 0, 0]).getD p.val 0)) := by
  refine ⟨rfl, fun hn => ?_⟩
  obtain ⟨m, rfl⟩ : ∃ m, n = m + 1 := ⟨n - 1, by omega⟩
  rw [calculateCumulativeScores_succ]
  simp only [Nat.add_sub_cancel]
  cases hs : game.scores m
  · simp only [hs, Option.getD, zeros_getD, add_zero]
    exact (getD_reconstruct _ (calculateCumulativeScores_length game m)).symm
  · simp only [hs, Option.getD]

/-- Witness for C9 on a concrete game with two finalized score rows. -/
def g9 : GameData := {
  calls := fun _ _ => none
  results := fun _ _ => none
  scores := fun r => if r = 0 then some [24, 24, 13, 12]
    else if r = 1 then some [10, -3, 5, 0] else none
  isCaller := fun _ _ => false
  roundDifferences := fun _ => none
  everyoneLost := fun _ => false
  isDashCall := fun _ _ => false
  manualRisk := fun _ _ => false
  mode := GameMode.mini }

theorem cumulative_scores_recurrence_w :
    calculateCumulativeScores g9 2 =
      List.ofFn (fun p : Fin 4 =>
        (calculateCumulativeScores g9 1).getD p.val 0 +
        ((g9.scores 1).getD [0, 0, 0, 0]).getD p.val 0) :=
  (cumulative_scores_recurrence g9 2).2 (by norm_num)

lemma lostStreakDoubles_le (el : ℕ → Bool) (n : ℕ) : lostStreakDoubles el n ≤ n := by
  induction n with
  | zero => simp [lostStreakDoubles]
  | succ m ih =>
    simp only [lostStreakDoubles]
    split_ifs <;> omega

lemma lostStreakDoubles_mem (el : ℕ → Bool) (n : ℕ) :
    ∀ j, n - lostStreakDoubles el n ≤ j → j < n → el j = true := by
  induction n with
  | zero => intro j h1 h2; omega
  | succ m ih =>
    intro j h1 h2
    by_cases h : el m = true
    · simp only [lostStreakDoubles, if_pos h] at h1
      rcases Nat.lt_succ_iff_lt_or_eq.mp h2 with hj | rfl
      · refine ih j ?_ hj
        have := lostStreakDoubles_le el m
        omega
      · exact h
    · simp only [lostStreakDoubles, if_neg h] at h1
      omega

lemma lostStreakDoubles_stop (el : ℕ → Bool) (n : ℕ) :
    lostStreakDoubles el n = n ∨ el (n - lostStreakDoubles el n - 1) = false := by
  induction n with
  | zero => exact Or.inl rfl
  | succ m ih =>
    by_cases h : el m = true
    · simp only [lostStreakDoubles, if_pos h]
      rcases ih with h1 | h2
      · exact Or.inl (by omega)
      · right
        have he : m + 1 - (lostStreakDoubles el m + 1) - 1 = m - lostStreakDoubles el m - 1 := by
          omega
        rw [he]
        exact h2
    · simp only [lostStreakDoubles, if_neg h]
      right
      simp only [Nat.sub_zero, Nat.add_sub_cancel]
      simpa using h

/-- Claim C5: whenever `calculateRoundScores` succeeds, each player's stored
score is that player's raw `calculatePlayerScore` result
(`playerBaseScore`) times one common multiplier shared by all 4 players:
`(2 if the current caller has at least 2 "with" players, else 1) · 2^k`,
where `k` is the number of immediately preceding consecutive rounds marked
`everyoneLost` (walking backward from `roundIndex - 1` and stopping at the
first round not so marked). -/
theorem roundScores_base_times_multiplier (game : GameData) (roundIndex : ℕ)
    (roundScores : List ℚ) (newIsWinner : List Bool)
    (h : calculateRoundScores game roundIndex = Except.ok (roundScores, newIsWinner)) :
    ∃ k : ℕ, k ≤ roundIndex ∧
      (∀ j, roundIndex - k ≤ j → j < roundIndex → game.everyoneLost j = true) ∧
      (k = roundIndex ∨ game.everyoneLost (roundIndex - k - 1) = false) ∧
      roundScores = (List.finRange 4).map (fun playerIndex =>
        playerBaseScore game roundIndex playerIndex *
          (((if (findIdx4 (game.isCaller roundIndex)).isSome ∧ 2 ≤ withCount game roundIndex
              then 2 else 1) * 2 ^ k : ℕ) : ℚ)) := by
  refine ⟨lostStreakDoubles game.everyoneLost roundIndex,
    lostStreakDoubles_le _ _, lostStreakDoubles_mem _ _, lostStreakDoubles_stop _ _, ?_⟩
  unfold calculateRoundScores at h
  by_cases hc : ((List.finRange 4).any (fun i => (game.calls roundIndex i).isNone) ||
      (List.finRange 4).any (fun i => (game.results roundIndex i).isNone)) = true
  · rw [if_pos hc] at h
    simp at h
  · rw [if_neg hc] at h
    simp only [Except.ok.injEq, Prod.mk.injEq] at h
    rw [← h.1]
    unfold roundMultiplier
    simp only [Bool.and_eq_true, decide_eq_true_eq]

/-- Witness for C5: caller + 2 "with" players on top of two preceding
everyone-lost rounds gives the uniform multiplier 8. -/
def g5 : GameData := {
  calls := fun r i => if r = 2 then some ([4, 4, 4, 1].getD i.val 0) else none
  results := fun r i => if r = 2 then some ([4, 4, 4, 1].getD i.val 0) else none
  scores := fun _ => none
  isCaller := fun r i => r = 2 && i.val = 0
  roundDifferences := fun r => if r = 2 then some 0 else none
  everyoneLost := fun r => r = 0 || r = 1
  isDashCall := fun _ _ => false
  manualRisk := fun _ _ => false
  mode := GameMode.mini }

theorem roundScores_base_times_multiplier_w :
    ∃ k : ℕ, k ≤ 2 ∧
      (∀ j, 2 - k ≤ j → j < 2 → g5.everyoneLost j = true) ∧
      (k = 2 ∨ g5.everyoneLost (2 - k - 1) = false) ∧
      ([192, 192, 192, 88] : List ℚ) = (List.finRange 4).map (fun playerIndex =>
        playerBaseScore g5 2 playerIndex *
          (((if (findIdx4 (g5.isCaller 2)).isSome ∧ 2 ≤ withCount g5 2
              then 2 else 1) * 2 ^ k : ℕ) : ℚ)) := by
  refine roundScores_base_times_multiplier g5 2 [192, 192, 192, 88]
    [true, true, true, true] ?_
  norm_num [calculateRoundScores, playerBaseScore, roundMultiplier, withCount,
    lostStreakDoubles, riskPlayerIdx, withFlag, findIdx4, validCalls, validResults,
    computeRiskMultiplier, candidateIndex, calculatePlayerScore, finRange4, g5,
    fin4_val0, fin4_val1, fin4_val2, fin4_val3]

lemma findIdx4_eq_none (p : Fin 4 → Bool) (h : ∀ i, p i = false) : findIdx4 p = none := by
  simp [findIdx4, h 0, h 1, h 2, h 3]

lemma findIdx4_eq_some_unique (p : Fin 4 → Bool) (i : Fin 4) (hi : p i = true)
    (huniq : ∀ j, j ≠ i → p j = false) : findIdx4 p = some i := by
  fin_cases i
  · simp_all [findIdx4]
  · simp_all [findIdx4, huniq 0 (by decide)]
  · simp_all [findIdx4, huniq 0 (by decide), huniq 1 (by decide)]
  · simp_all [findIdx4, huniq 0 (by decide), huniq 1 (by decide), huniq 2 (by decide)]

/-- Claim C6: in a mandatory-suit round (classic mode, round number 14-18)
the risk player is taken solely from `manualRisk` — the sole `true` index,
or none when unset — with automatic derivation disabled; in every other
round the risk player is the first position among
`(callerIndex+3)%4, (callerIndex+2)%4, (callerIndex+1)%4`, tried in that
order, that is not a dash call, and no risk player is selected when the
caller index is unknown (`-1`, modelled `none`). -/
theorem riskPlayer_selection_rule (game : GameData) (roundIndex : ℕ) :
    ((game.mode = GameMode.classic ∧ 14 ≤ roundIndex + 1 ∧ roundIndex + 1 ≤ 18) →
      ((∀ i, game.manualRisk roundIndex i = false) →
        riskPlayerIdx game roundIndex = none) ∧
      (∀ i, game.manualRisk roundIndex i = true →
        (∀ j, j ≠ i → game.manualRisk roundIndex j = false) →
        riskPlayerIdx game roundIndex = some i)) ∧
    (¬(game.mode = GameMode.classic ∧ 14 ≤ roundIndex + 1 ∧ roundIndex + 1 ≤ 18) →
      (findIdx4 (game.isCaller roundIndex) = none →
        riskPlayerIdx game roundIndex = none) ∧
      (∀ c, findIdx4 (game.isCaller roundIndex) = some c →
        riskPlayerIdx game roundIndex =
          [candidateIndex c 3, candidateIndex c 2, candidateIndex c 1].find?
            (fun j => !(game.isDashCall roundIndex j)))) := by
  constructor
  · intro hm
    have hmb : (decide (game.mode = GameMode.classic) &&
        decide (14 ≤ roundIndex + 1) && decide (roundIndex + 1 ≤ 18)) = true := by
      simp only [Bool.and_eq_true, decide_eq_true_eq]
      tauto
    constructor
    · intro hnone
      unfold riskPlayerIdx
      rw [if_pos hmb]
      exact findIdx4_eq_none _ hnone
    · intro i hi huniq
      unfold riskPlayerIdx
      rw [if_pos hmb]
      exact findIdx4_eq_some_unique _ i hi huniq
  · intro hm
    have hmb : (decide (game.mode = GameMode.classic) &&
        decide (14 ≤ roundIndex + 1) && decide (roundIndex + 1 ≤ 18)) = false := by
      rw [Bool.eq_false_iff]
      intro habs
      apply hm
      simpa [Bool.and_eq_true, decide_eq_true_eq, and_assoc] using habs
    constructor
    · intro hnone
      unfold riskPlayerIdx
      rw [if_neg (by simp only [hmb]; exact Bool.false_ne_true)]
      rw [hnone]
    · intro c hcaller
      unfold riskPlayerIdx
      rw [if_neg (by simp only [hmb]; exact Bool.false_ne_true)]
      rw [hcaller]
      by_cases h3 : game.isDashCall roundIndex (candidateIndex c 3) <;>
        by_cases h2 : game.isDashCall roundIndex (candidateIndex c 2) <;>
        by_cases h1 : game.isDashCall roundIndex (candidateIndex c 1) <;>
        simp [List.find?, h3, h2, h1]

/-- Witness for C6: a classic-mode round 14 (index 13) with `manualRisk`
designating player 2, and a non-mandatory round whose caller is player 1
with a dash call at `(1+3)%4 = 0`, so the risk player is `(1+2)%4 = 3`. -/
def g6 : GameData := {
  calls := fun _ _ => none
  results := fun _ _ => none
  scores := fun _ => none
  isCaller := fun r i => r = 2 && i.val = 1
  roundDifferences := fun _ => none
  everyoneLost := fun _ => false
  isDashCall := fun r i => r = 2 && i.val = 0
  manualRisk := fun r i => r = 13 && i.val = 2
  mode := GameMode.classic }

theorem riskPlayer_selection_rule_w :
    riskPlayerIdx g6 13 = some 2 ∧ riskPlayerIdx g6 2 = some 3 := by
  constructor
  · exact ((riskPlayer_selection_rule g6 13).1 (by refine ⟨rfl, by norm_num, by norm_num⟩)).2
      2 (by decide) (by decide)
  · rw [((riskPlayer_selection_rule g6 2).2 (by simp)).2 1 (by decide)]
    decide

/-- Counterexample game for C7: round 0 has all calls and results set and a
known caller — player 0, who voluntarily bids 0 (the caller is not flagged
as a dash call, matching the spec's invariant on `isDashCall`).  Player 1
is a dash call: bid 0 and `isDashCall` true. -/
def gC7 : GameData := {
  calls := fun r i => if r = 0 then some ([0, 0, 5, 8].getD i.val 0) else none
  results := fun r i => if r = 0 then some ([1, 0, 5, 7].getD i.val 0) else none
  scores := fun _ => none
  isCaller := fun r i => r = 0 && i.val = 0
  roundDifferences := fun r => if r = 0 then some 0 else none
  everyoneLost := fun _ => false
  isDashCall := fun r i => r = 0 && i.val = 1
  manualRisk := fun _ _ => false
  mode := GameMode.classic }

/-- Claim C7, counterexample: in `gC7` round 0 all 8 inputs are set and the
caller is known (player 0, bid 0).  Player 1 is not the caller, bids the
caller's number, and is a dash call in both senses — bid 0 and `isDashCall`
true — yet the flag computed at line 237 (`withFlag`), which performs no
dash check, is `true`; the claim demands `false` for a dash-call player, so
the claimed biconditional fails at this player. -/
theorem withFlag_dash_counterexample :
    gC7.calls 0 0 = some 0 ∧ gC7.calls 0 1 = some 0 ∧
    gC7.calls 0 2 = some 5 ∧ gC7.calls 0 3 = some 8 ∧
    gC7.results 0 0 = some 1 ∧ gC7.results 0 1 = some 0 ∧
    gC7.results 0 2 = some 5 ∧ gC7.results 0 3 = some 7 ∧
    findIdx4 (gC7.isCaller 0) = some 0 ∧
    gC7.isCaller 0 1 = false ∧
    validCalls gC7 0 1 = 0 ∧
    gC7.isDashCall 0 1 = true ∧
    validCalls gC7 0 1 = validCalls gC7 0 0 ∧
    withFlag gC7 0 1 = true ∧
    ¬(withFlag gC7 0 1 = true ↔
      (gC7.isCaller 0 1 = false ∧ validCalls gC7 0 1 ≠ 0 ∧
        validCalls gC7 0 1 = validCalls gC7 0 0)) := by
  refine ⟨rfl, rfl, rfl, rfl, rfl, rfl, rfl, rfl, rfl, rfl, rfl, rfl, rfl, rfl, ?_⟩
  intro hiff
  exact absurd (hiff.mp rfl).2.1 (by decide)

/-- Claim C7, amended: for every round with all calls and results set and a
known caller, the `isWith` flag that `calculateRoundScores` passes to
`calculatePlayerScore` (`withFlag`, line 237) is true exactly when the
player is not the caller and their bid equals the caller's bid — the code
applies no dash-call exclusion.  (For a dash-call player the flag is inert:
dash scoring returns before reading `isWith`.) -/
theorem withFlag_characterization (game : GameData) (roundIndex : ℕ) (c : Fin 4)
    (hc : findIdx4 (game.isCaller roundIndex) = some c) (playerIndex : Fin 4) :
    withFlag game roundIndex playerIndex = true ↔
      (game.isCaller roundIndex playerIndex = false ∧
       validCalls game roundIndex playerIndex = validCalls game roundIndex c) := by
  unfold withFlag
  rw [hc]
  simp only [Option.map_some', Bool.and_eq_true, Bool.not_eq_true', beq_iff_eq]

/-- Witness game for C7: caller is player 0 bidding 4; player 1 also bids 4
(a "with" player), player 2 bids 0 (dash), player 3 bids 6. -/
def g7 : GameData := {
  calls := fun r i => if r = 0 then some ([4, 4, 0, 6].getD i.val 0) else none
  results := fun _ _ => none
  scores := fun _ => none
  isCaller := fun r i => r = 0 && i.val = 0
  roundDifferences := fun _ => none
  everyoneLost := fun _ => false
  isDashCall := fun r i => r = 0 && i.val = 2
  manualRisk := fun _ _ => false
  mode := GameMode.classic }

theorem withFlag_characterization_w :
    withFlag g7 0 1 = true ∧ withFlag g7 0 3 = false := by
  constructor
  · exact (withFlag_characterization g7 0 0 (by decide) 1).mpr (by decide)
  · have h := withFlag_characterization g7 0 0 (by decide) 3
    by_contra hw
    simp only [Bool.not_eq_false] at hw
    exact absurd (h.mp hw).2 (by decide)

lemma candidateIndex_ne_self (c : Fin 4) (o : ℕ) (h1 : 1 ≤ o) (h2 : o ≤ 3) :
    candidateIndex c o ≠ c := by
  have hlt := c.isLt
  simp only [candidateIndex, Ne, Fin.ext_iff]
  omega

lemma riskPlayerIdx_none_of_all_dash (game : GameData) (roundIndex : ℕ) (c : Fin 4)
    (hmand : ¬(game.mode = GameMode.classic ∧ 14 ≤ roundIndex + 1 ∧ roundIndex + 1 ≤ 18))
    (hc : findIdx4 (game.isCaller roundIndex) = some c)
    (hdash : ∀ i : Fin 4, i ≠ c → game.isDashCall roundIndex i = true) :
    riskPlayerIdx game roundIndex = none := by
  have hmb : (decide (game.mode = GameMode.classic) &&
      decide (14 ≤ roundIndex + 1) && decide (roundIndex + 1 ≤ 18)) = false := by
    rw [Bool.eq_false_iff]
    intro habs
    apply hmand
    simpa [Bool.and_eq_true, decide_eq_true_eq, and_assoc] using habs
  unfold riskPlayerIdx
  rw [if_neg (by simp only [hmb]; exact Bool.false_ne_true)]
  rw [hc]
  dsimp only
  rw [hdash _ (candidateIndex_ne_self c 3 (by norm_num) (by norm_num)),
    hdash _ (candidateIndex_ne_self c 2 (by norm_num) (by norm_num)),
    hdash _ (candidateIndex_ne_self c 1 (by norm_num) (by norm_num))]
  rfl

lemma calculatePlayerScore_risk_flag_false (bid result : ℤ)
    (isDash isPositiveDash isCaller isOnlyWinner isOnlyLoser isWith : Bool) (rm rm' : ℤ) :
    calculatePlayerScore bid result isDash isPositiveDash isCaller false
      isOnlyWinner isOnlyLoser isWith rm =
    calculatePlayerScore bid result isDash isPositiveDash isCaller false
      isOnlyWinner isOnlyLoser isWith rm' := by
  simp [calculatePlayerScore]

/-- Claim C10: in a non-mandatory round with a known caller whose three
non-caller positions are all dash calls, `calculateRoundScores` selects no
risk player (the automatic walk never considers the caller's own position),
so no player receives a risk bonus: the round scores coincide with those of
the same game with its round difference erased (which forces risk
multiplier 0 and a false risk flag), even when `|roundDifference| ≥ 2` and
the risk multiplier is positive. -/
theorem all_dash_no_risk_player (game : GameData) (roundIndex : ℕ) (c : Fin 4)
    (hmand : ¬(game.mode = GameMode.classic ∧ 14 ≤ roundIndex + 1 ∧ roundIndex + 1 ≤ 18))
    (hc : findIdx4 (game.isCaller roundIndex) = some c)
    (hdash : ∀ i : Fin 4, i ≠ c → game.isDashCall roundIndex i = true) :
    riskPlayerIdx game roundIndex = none ∧
    calculateRoundScores game roundIndex =
      calculateRoundScores { game with roundDifferences := fun _ => none } roundIndex := by
  have hrp := riskPlayerIdx_none_of_all_dash game roundIndex c hmand hc hdash
  have hrp' : riskPlayerIdx { game with roundDifferences := fun _ => none } roundIndex = none :=
    riskPlayerIdx_none_of_all_dash _ roundIndex c hmand hc hdash
  refine ⟨hrp, ?_⟩
  have hbeq : ∀ x : Fin 4, ((none : Option (Fin 4)) == some x) = false := fun _ => rfl
  have hbase : ∀ p : Fin 4, playerBaseScore game roundIndex p =
      playerBaseScore { game with roundDifferences := fun _ => none } roundIndex p := by
    intro p
    unfold playerBaseScore
    simp only [hrp, hrp', hbeq, Bool.and_false]
    exact calculatePlayerScore_risk_flag_false _ _ _ _ _ _ _ _ _ _
  unfold calculateRoundScores
  by_cases hval : ((List.finRange 4).any (fun i => (game.calls roundIndex i).isNone) ||
      (List.finRange 4).any (fun i => (game.results roundIndex i).isNone)) = true
  · rw [if_pos hval, if_pos hval]
  · rw [if_neg hval, if_neg hval]
    simp only [hbase]
    rfl

/-- Witness game for C10: mini mode, caller player 0 bids 7, the other
three players are dash calls, round difference -6 (risk tier 3, positive),
yet no risk player exists. -/
def g10 : GameData := {
  calls := fun r i => if r = 0 then some ([7, 0, 0, 0].getD i.val 0) else none
  results := fun r i => if r = 0 then some ([5, 0, 1, 2].getD i.val 0) else none
  scores := fun _ => none
  isCaller := fun r i => r = 0 && i.val = 0
  roundDifferences := fun r => if r = 0 then some (-6) else none
  everyoneLost := fun _ => false
  isDashCall := fun r i => r = 0 && decide (1 ≤ i.val)
  manualRisk := fun _ _ => false
  mode := GameMode.mini }

theorem all_dash_no_risk_player_w :
    riskPlayerIdx g10 0 = none ∧
    calculateRoundScores g10 0 =
      calculateRoundScores { g10 with roundDifferences := fun _ => none } 0 :=
  all_dash_no_risk_player g10 0 0 (by decide) (by decide) (by decide)

/-- Witness game for C8: player 0's call in round 0 is unset, so the round
cannot be scored. -/
def g8 : GameData := {
  calls := fun r i => if r = 0 && i.val = 0 then none else some 3
  results := fun _ _ => some 3
  scores := fun _ => none
  isCaller := fun _ _ => false
  roundDifferences := fun _ => none
  everyoneLost := fun _ => false
  isDashCall := fun _ _ => false
  manualRisk := fun _ _ => false
  mode := GameMode.micro }

theorem calculateRoundScores_validation_w :
    calculateRoundScores g8 0 =
      Except.error "Cannot calculate scores: missing calls or results" :=
  (calculateRoundScores_validation g8 0).1.mpr ⟨0, Or.inl (by decide)⟩

end Estimation
